import Mathlib

/-!
Shallow embedding of the `rateratio_test` repository (two Python modules,
`p_adjust.py` and `rateratio.py`) over exact rationals.

Conventions of the embedding:
* Python floats are modelled as `ℚ` (exact arithmetic).
* A Python function that can raise is modelled as `Except String _`; the
  error string records the exception the interpreter would raise (assertion
  messages are taken verbatim from the source).
* The module only runs under Python 2 (it uses `xrange`); accordingly
  `None > 0` evaluates to `False`, which is how the default `n=None` of
  `p_adjust` falls through to `n = len(p)`.
* `scipy.stats.beta.ppf` (the Beta-distribution quantile `qbeta`) has no
  closed form; every definition that needs it takes an arbitrary function
  `qbeta : ℚ → ℚ → ℚ → ℚ` (arguments: quantile level, shape a, shape b) as
  a parameter, and theorems quantify over it.
* `scipy.stats.binom.cdf` is exactly computable and is embedded as `pbinom`.
* numpy arrays are modelled as flat `List ℚ`; the `ravel`/`reshape` pair of
  `p_adjust` is the identity on this model, so "shape" is "length".
-/

/-! ### p_adjust.py -/

/-- `p_adjust_methods=["fdr","bonferroni","none"]` (p_adjust.py line 59). -/
def p_adjust_methods : List String := ["fdr", "bonferroni", "none"]

/-- Python `str.lower()` on the method string (ASCII, as used here). -/
def strLower (s : String) : String := ⟨s.data.map Char.toLower⟩

/-- Lines 71-73 of p_adjust.py: `method=str(method).lower()`; alias
`"bh"` is rewritten to `"fdr"`. -/
def normMethod (method : String) : String :=
  let s := strLower method
  if s = "bh" then "fdr" else s

/-- The backward pass of the Benjamini-Hochberg step (p_adjust.py lines
121-125) over the ascending-sorted p-values, starting at sorted index `i`.
The last element is `min (c * p / len) 1` (lines 121-122, since
`pi0 * n / len * p = pi0 * n * p / ((len-1)+1)` exactly over `ℚ`); every
earlier element is `min (c * p_i / (i+1)) qv_{i+1}` (line 125), where
`c = pi0 * n`. -/
def bhAux (c : ℚ) : ℕ → List ℚ → List ℚ
  | _, [] => []
  | i, a :: rest =>
    match bhAux c (i + 1) rest with
    | [] => [min (c * a / (i + 1)) 1]
    | q :: qs => min (c * a / (i + 1)) q :: q :: qs

/-- Lines 86-89 of p_adjust.py: the effective comparison count.  Under
Python 2, `None > 0` is `False`, so both an absent `n` and a provided
`n ≤ 0` fall back to `len(p)`. -/
def effN (n : Option ℚ) (len : ℕ) : ℚ :=
  match n with
  | some v => if 0 < v then v else (len : ℚ)
  | none => (len : ℚ)

/-- The FDR branch of `p_adjust` for a nonempty input (p_adjust.py lines
119-134): argsort the p-values (stable, ties kept in original order),
run the BH backward pass over the sorted values, and scatter the results
back to the original positions. -/
def bhAdjust (p : List ℚ) (n pi0 : ℚ) : List ℚ :=
  let sorted := (p.enum).insertionSort (fun a b => a.2 ≤ b.2)
  let order := sorted.map Prod.fst
  let ps := sorted.map Prod.snd
  let qv := bhAux (pi0 * n) 0 ps
  ((order.zip qv).insertionSort (fun a b => a.1 ≤ b.1)).map Prod.snd

/-- `p_adjust(p, method, n)` of p_adjust.py (lines 63-134).

* unknown method: `AssertionError` with the message of line 75;
* `"none"`: the input is returned unchanged (line 81);
* `n` defaults to `len(p)` when absent or `≤ 0` (lines 86-89; under
  Python 2 `None > 0` is `False`);
* `"bonferroni"`: `qv = n*p; qv[qv>1] = 1` (lines 91-95);
* `"fdr"`, `len(p) ≥ 100`: line 104 reads `sp.arange(0, 0.9, 0.01)` but no
  name `sp` is ever imported or defined (and line 106 likewise uses an
  undefined `m`), so this branch raises `NameError` before anything else;
* `"fdr"`, `len(p) = 0`: line 121 computes `pi0 * n/len(p) * p` and the
  division by `len(p) = 0` raises `ZeroDivisionError`;
* `"fdr"` otherwise: `pi0 = 1` (line 99) and the BH pass `bhAdjust`. -/
def p_adjust (p : List ℚ) (method : String) (n : Option ℚ) : Except String (List ℚ) :=
  let m := normMethod method
  if m ∈ p_adjust_methods then
    if m = "none" then .ok p
    else
      let nEff : ℚ := effN n p.length
      if m = "bonferroni" then
        .ok (p.map fun q => if 1 < nEff * q then 1 else nEff * q)
      else
        if p.length < 100 then
          if p.length = 0 then .error "ZeroDivisionError: float division by zero"
          else .ok (bhAdjust p nEff 1)
        else .error "NameError: name sp is not defined"
  else .error "ERROR! method must be one of fdr,bonferroni,none"

/-! ### rateratio.py -/

/-- `scipy.stats.binom.cdf k n pr`: the binomial cumulative distribution
function `P(Bin(n, pr) ≤ k)`, exactly over `ℚ`; `0` for `k < 0` and the
full sum (`1`) for `k ≥ n`. -/
def pbinom (k : ℤ) (n : ℕ) (pr : ℚ) : ℚ :=
  ∑ i ∈ Finset.range (n + 1),
    if (i : ℤ) ≤ k then (n.choose i : ℚ) * pr ^ i * (1 - pr) ^ (n - i) else 0

/-- The `htest` result record (rateratio.py lines 65-74), restricted to the
computational fields; the `data_name` string is presentation-only
formatting and is not modelled.  The upper confidence bound can be the
float `Inf`, hence `WithTop ℚ` entries; following line 175, `conf_int`
also carries the confidence level as its third entry. -/
structure Htest where
  p_value : ℚ
  estimate : List ℚ
  null_value : ℚ
  conf_int : List (WithTop ℚ)
  alternative : String
  method : String

/-- `p_L(x, n, alpha)` of rateratio.py lines 106-109, parameterized by the
Beta quantile function `qbeta level a b`. -/
def p_L (qbeta : ℚ → ℚ → ℚ → ℚ) (x n : ℤ) (alpha : ℚ) : ℚ :=
  if x = 0 then 0 else qbeta alpha (x : ℚ) ((n : ℚ) - (x : ℚ) + 1)

/-- `p_U(x, n, alpha)` of rateratio.py lines 111-114. -/
def p_U (qbeta : ℚ → ℚ → ℚ → ℚ) (x n : ℤ) (alpha : ℚ) : ℚ :=
  if x = n then 1 else qbeta (1 - alpha) ((x : ℚ) + 1) ((n : ℚ) - (x : ℚ))

/-- Single-letter / underscore shorthand expansion for the alternative
hypothesis (rateratio.py lines 137-142). -/
def normAlt (a : String) : String :=
  if a = "t" ∨ a = "two_sided" then "two.sided"
  else if a = "g" then "greater"
  else if a = "l" then "less"
  else a

/-- The recognized canonical alternatives (rateratio.py line 143). -/
def altChoices : List String := ["two.sided", "less", "greater"]

/-- Error message of the `match.arg(alternative)` assertion
(rateratio.py lines 143-145). -/
def altErrMsg : String :=
  "Error in match.arg(alternative) : \n  'arg' should be one of \"two.sided\", \"less\", \"greater\""

/-- Method description string (rateratio.py line 72). -/
def rrMethodDesc : String := "Exact Rate Ratio Test, assuming Poisson counts"

/-- `test(x, n, RR, alternative, conf_level)` of rateratio.py lines
116-176, parameterized by the Beta quantile oracle `qbeta`.

The five `assert` statements (lines 129-134), the alternative check
(line 143) and the confidence-level check (line 147) are embedded as the
nested guards, failing with the source's assertion messages.  After the
checks, line 156 computes the point estimate `(Y/N)/(X/M)`; when
`X/M = 0` (i.e. `x[1] = 0`) the Python float division raises
`ZeroDivisionError`.  Otherwise the p-value (lines 157-159) and the
branch-specific confidence interval (lines 161-175) are produced. -/
def test (x : List ℤ) (n : List ℚ) (RR : ℚ) (alternative : String)
    (conf_level : ℚ) (qbeta : ℚ → ℚ → ℚ → ℚ) : Except String Htest :=
  if x.length = 2 then
    if x.length = n.length then
      if ∀ a ∈ n, 0 < a then
        if ∀ a ∈ x, 0 ≤ a then
          if 0 < RR then
            let alt := normAlt alternative
            if alt ∈ altChoices then
              if 0 < conf_level ∧ conf_level < 1 then
                let Y : ℤ := x.getD 0 0
                let X : ℤ := x.getD 1 0
                let N : ℚ := n.getD 0 0
                let M : ℚ := n.getD 1 0
                let rate1 : ℚ := (Y : ℚ) / N
                let rate2 : ℚ := (X : ℚ) / M
                if rate2 = 0 then .error "ZeroDivisionError: float division by zero"
                else
                  let pRR : ℚ := N * RR / (N * RR + M)
                  let pval_less : ℚ := pbinom Y (X + Y).toNat pRR
                  let pval_greater : ℚ := 1 - pbinom (Y - 1) (Y + X).toNat pRR
                  if alt = "less" then
                    .ok { p_value := pval_less
                          estimate := [rate1 / rate2, rate1, rate2]
                          null_value := RR
                          conf_int := [((0 : ℚ) : WithTop ℚ),
                            ((p_U qbeta Y (X + Y) (1 - conf_level) * M /
                              (N * (1 - p_U qbeta Y (X + Y) (1 - conf_level))) : ℚ) : WithTop ℚ),
                            (conf_level : WithTop ℚ)]
                          alternative := alt
                          method := rrMethodDesc }
                  else if alt = "greater" then
                    .ok { p_value := pval_greater
                          estimate := [rate1 / rate2, rate1, rate2]
                          null_value := RR
                          conf_int := [((p_L qbeta Y (X + Y) (1 - conf_level) * M /
                              (N * (1 - p_L qbeta Y (X + Y) (1 - conf_level))) : ℚ) : WithTop ℚ),
                            (⊤ : WithTop ℚ),
                            (conf_level : WithTop ℚ)]
                          alternative := alt
                          method := rrMethodDesc }
                  else
                    .ok { p_value := min 1 (2 * min pval_less pval_greater)
                          estimate := [rate1 / rate2, rate1, rate2]
                          null_value := RR
                          conf_int := [((p_L qbeta Y (X + Y) ((1 - conf_level) / 2) * M /
                              (N * (1 - p_L qbeta Y (X + Y) ((1 - conf_level) / 2))) : ℚ) : WithTop ℚ),
                            ((p_U qbeta Y (X + Y) ((1 - conf_level) / 2) * M /
                              (N * (1 - p_U qbeta Y (X + Y) ((1 - conf_level) / 2))) : ℚ) : WithTop ℚ),
                            (conf_level : WithTop ℚ)]
                          alternative := alt
                          method := rrMethodDesc }
              else .error "'conf.level' must be a single number between 0 and 1"
            else .error altErrMsg
          else .error "RR must be greater than 0"
        else .error "elements of 'x' must be nonnegative"
      else .error "elements of 'n' must be positive"
    else .error "'x' and 'n' must have the same length"
  else .error "x must have a length 2"

/-! ### Spec-side definitions (written from the specification's wording,
to be compared against the code embedding) -/

/-- The spec's conditional binomial success probability
`p = n₀·RR / (n₀·RR + n₁)`. -/
def specPRR (n0 n1 RR : ℚ) : ℚ := n0 * RR / (n0 * RR + n1)

/-- The spec's `pval_less = BinomCDF(x₀; x₀+x₁, p)`. -/
def specPvalLess (x0 x1 : ℤ) (n0 n1 RR : ℚ) : ℚ :=
  pbinom x0 (x0 + x1).toNat (specPRR n0 n1 RR)

/-- The spec's `pval_greater = 1 − BinomCDF(x₀−1; x₀+x₁, p)`. -/
def specPvalGreater (x0 x1 : ℤ) (n0 n1 RR : ℚ) : ℚ :=
  1 - pbinom (x0 - 1) (x0 + x1).toNat (specPRR n0 n1 RR)

/-- The spec's proportion-to-rate-ratio transform
`T(q) = (q·n₁) / (n₀·(1−q))`. -/
def rrTransform (n0 n1 q : ℚ) : ℚ := q * n1 / (n0 * (1 - q))

/-- A constant Beta-quantile oracle, used to instantiate witnesses. -/
def qbetaConst : ℚ → ℚ → ℚ → ℚ := fun _ _ _ => 1/2

/-- A Beta-quantile oracle that distinguishes the two shape-parameter
pairs `(x, N−x+1)` and `(x+1, N−x)`, used to separate `p_L` from `p_U`
on concrete inputs. -/
def qbetaSel : ℚ → ℚ → ℚ → ℚ := fun _ a _ => if a = 1 then 1/4 else 1/2

/-- The confidence interval of a `test` outcome (`[]` when the call
raised). -/
def confIntOf (e : Except String Htest) : List (WithTop ℚ) :=
  match e with
  | .ok r => r.conf_int
  | .error _ => []

/-! ### Basic evaluation and length lemmas for `p_adjust` -/

lemma effN_none (len : ℕ) : effN none len = (len : ℚ) := rfl

lemma effN_pos (v : ℚ) (len : ℕ) (h : 0 < v) : effN (some v) len = v := by
  simp [effN, h]

lemma normMethod_fdr : normMethod "fdr" = "fdr" := by decide

lemma normMethod_bonferroni : normMethod "bonferroni" = "bonferroni" := by decide

lemma normMethod_none : normMethod "none" = "none" := by decide

lemma p_adjust_none (p : List ℚ) (n : Option ℚ) : p_adjust p "none" n = .ok p := by
  simp [p_adjust, normMethod_none, p_adjust_methods]

lemma p_adjust_bonferroni (p : List ℚ) (n : Option ℚ) :
    p_adjust p "bonferroni" n =
      .ok (p.map fun q => if 1 < effN n p.length * q then 1 else effN n p.length * q) := by
  simp [p_adjust, normMethod_bonferroni, p_adjust_methods]

lemma p_adjust_fdr_small (p : List ℚ) (n : Option ℚ) (h1 : p.length < 100)
    (h2 : p.length ≠ 0) :
    p_adjust p "fdr" n = .ok (bhAdjust p (effN n p.length) 1) := by
  simp [p_adjust, normMethod_fdr, p_adjust_methods, h1, h2]

lemma p_adjust_fdr_empty (n : Option ℚ) :
    p_adjust ([] : List ℚ) "fdr" n = .error "ZeroDivisionError: float division by zero" := by
  simp [p_adjust, normMethod_fdr, p_adjust_methods]

lemma p_adjust_fdr_large (p : List ℚ) (n : Option ℚ) (h1 : 100 ≤ p.length) :
    p_adjust p "fdr" n = .error "NameError: name sp is not defined" := by
  have h2 : ¬ p.length < 100 := by omega
  simp [p_adjust, normMethod_fdr, p_adjust_methods, h2]

lemma bhAux_length (c : ℚ) (l : List ℚ) : ∀ i, (bhAux c i l).length = l.length := by
  induction l with
  | nil => intro i; rfl
  | cons a rest ih =>
    intro i
    rw [bhAux]
    have h2 := ih (i + 1)
    rcases h : bhAux c (i + 1) rest with _ | ⟨q, qs⟩
    · rw [h] at h2
      simp only [List.length_nil] at h2
      simp only [List.length_cons, List.length_singleton, List.length_nil]
      omega
    · rw [h] at h2
      simp only [List.length_cons] at h2
      simp only [List.length_cons]
      omega

lemma bhAdjust_length (p : List ℚ) (n pi0 : ℚ) : (bhAdjust p n pi0).length = p.length := by
  unfold bhAdjust
  simp [List.length_insertionSort, List.length_zip, bhAux_length, List.enum_length]

/-- Pointwise identity between the source's `qv[qv>1]=1` clamping and
`min 1 (n*q)`. -/
lemma clamp_eq_min (n x : ℚ) : (if 1 < n * x then 1 else n * x) = min 1 (n * x) := by
  rcases le_or_lt (n * x) 1 with h | h
  · rw [if_neg (not_lt.2 h), min_eq_right h]
  · rw [if_pos h, min_eq_left h.le]

/-- Elementwise monotonicity of the Bonferroni map in the comparison
count, for nonnegative p-values. -/
lemma bonferroni_mono (p : List ℚ) (n n' : ℚ) (hnn : n ≤ n') :
    (∀ a ∈ p, 0 ≤ a) →
    List.Forall₂ (· ≤ ·) (p.map fun x => min 1 (n * x)) (p.map fun x => min 1 (n' * x)) := by
  induction p with
  | nil => intro _; simp
  | cons a t ih =>
    intro hp
    simp only [List.map_cons]
    refine List.Forall₂.cons ?_ (ih fun x hx => hp x (List.mem_cons_of_mem _ hx))
    exact min_le_min le_rfl (mul_le_mul_of_nonneg_right hnn (hp a (List.mem_cons_self _ _)))

/-- C1 (counterexample): `adjust([0.03, 0.2, 0.4], method="fdr")` with the
default `n` does NOT return `[0.4, 0.4, 0.4]`. -/
theorem padjust_c1_counterexample :
    p_adjust [3/100, 1/5, 2/5] "fdr" none ≠ .ok [2/5, 2/5, 2/5] := by
  rw [p_adjust_fdr_small _ _ (by norm_num) (by norm_num)]
  norm_num [bhAdjust, bhAux, effN, List.insertionSort, List.orderedInsert, List.enum]

/-- C1 (amended): `adjust([0.03, 0.2, 0.4], method="fdr")` with the default
`n` returns the Benjamini-Hochberg values `[0.09, 0.3, 0.4]`: the raw
step-up values `0.09, 0.3, 0.4` are already non-decreasing, so the
right-to-left running minimum leaves them unchanged (small-sample branch,
`pi0 = 1`). -/
theorem padjust_c1_amended :
    p_adjust [3/100, 1/5, 2/5] "fdr" none = .ok [9/100, 3/10, 2/5] := by
  rw [p_adjust_fdr_small _ _ (by norm_num) (by norm_num)]
  norm_num [bhAdjust, bhAux, effN, List.insertionSort, List.orderedInsert, List.enum]

/-- C4 (code bug): for any collection of 100 p-values, the `"fdr"` branch
of `p_adjust` raises `NameError` (p_adjust.py line 104 references `sp`,
which is never imported or defined; line 106 likewise uses an undefined
`m`) instead of estimating `pi0` from the λ-grid and returning a result. -/
theorem padjust_c4_crash :
    p_adjust (List.replicate 100 (1/2 : ℚ)) "fdr" none =
      .error "NameError: name sp is not defined" :=
  p_adjust_fdr_large _ _ (by simp)

/-- C5: for every p-value collection and every positive comparison count
`n`, Bonferroni adjustment returns exactly `min 1 (n·p[i])` at each
position, every output is at most 1, and increasing `n` never decreases
any output element. -/
theorem padjust_c5_bonferroni (p : List ℚ) (n n' : ℚ) (hn : 0 < n) (hnn : n ≤ n')
    (hp : ∀ a ∈ p, 0 ≤ a) :
    p_adjust p "bonferroni" (some n) = .ok (p.map fun x => min 1 (n * x)) ∧
    (∀ q ∈ p.map fun x => min 1 (n * x), q ≤ 1) ∧
    List.Forall₂ (· ≤ ·) (p.map fun x => min 1 (n * x)) (p.map fun x => min 1 (n' * x)) := by
  refine ⟨?_, ?_, bonferroni_mono p n n' hnn hp⟩
  · rw [p_adjust_bonferroni, effN_pos _ _ hn]
    simp only [clamp_eq_min]
  · intro q hq
    simp only [List.mem_map] at hq
    obtain ⟨x, -, rfl⟩ := hq
    exact min_le_left _ _

/-- Witness for C5 at `p = [1/2]`, `n = 2`, `n' = 3`. -/
theorem padjust_c5_witness :
    p_adjust [(1:ℚ)/2] "bonferroni" (some 2) = .ok [min 1 (2 * ((1:ℚ)/2))] :=
  (padjust_c5_bonferroni [1/2] 2 3 (by norm_num) (by norm_num) (by norm_num)).1

/-- C6 (counterexample): on the empty p-value collection, the `"fdr"`
small-sample branch crashes with `ZeroDivisionError` (p_adjust.py
line 121 divides by `len(p) = 0`), contradicting the claim that the empty
input returns normally. -/
theorem padjust_c6_counterexample :
    p_adjust ([] : List ℚ) "fdr" none =
      .error "ZeroDivisionError: float division by zero" :=
  p_adjust_fdr_empty none

/-- C6 (amended): a single-element p-value collection passes through the
`"fdr"` small-sample branch normally (yielding `[min p₀ 1]`), but the
empty collection raises `ZeroDivisionError`. -/
theorem padjust_c6_amended :
    (∀ a : ℚ, p_adjust [a] "fdr" none = .ok [min a 1]) ∧
    p_adjust ([] : List ℚ) "fdr" none =
      .error "ZeroDivisionError: float division by zero" := by
  refine ⟨fun a => ?_, p_adjust_fdr_empty none⟩
  rw [p_adjust_fdr_small _ _ (by norm_num) (by norm_num)]
  norm_num [bhAdjust, bhAux, effN, List.insertionSort, List.orderedInsert, List.enum]

/-- C9: whenever `p_adjust` returns a collection, for any of the three
recognized methods, the output has the same length (the model's shape) as
the input. -/
theorem padjust_c9_shape (p : List ℚ) (method : String) (n : Option ℚ) (q : List ℚ)
    (hm : method ∈ p_adjust_methods) (h : p_adjust p method n = .ok q) :
    q.length = p.length := by
  have hm' : method = "fdr" ∨ method = "bonferroni" ∨ method = "none" := by
    simpa [p_adjust_methods] using hm
  rcases hm' with rfl | rfl | rfl
  · rcases Nat.lt_or_ge p.length 100 with h1 | h1
    · rcases Nat.eq_zero_or_pos p.length with h2 | h2
      · obtain rfl : p = [] := List.length_eq_zero.mp h2
        rw [p_adjust_fdr_empty] at h
        simp at h
      · rw [p_adjust_fdr_small _ _ h1 (by omega)] at h
        simp only [Except.ok.injEq] at h
        rw [← h, bhAdjust_length]
    · rw [p_adjust_fdr_large _ _ h1] at h
      simp at h
  · rw [p_adjust_bonferroni] at h
    simp only [Except.ok.injEq] at h
    rw [← h, List.length_map]
  · rw [p_adjust_none] at h
    simp only [Except.ok.injEq] at h
    rw [← h]

/-- Witness for C9 at `p = [1/2]`, `method = "none"`. -/
theorem padjust_c9_witness : ([(1:ℚ)/2] : List ℚ).length = ([(1:ℚ)/2] : List ℚ).length :=
  padjust_c9_shape [1/2] "none" none [1/2] (by decide) (p_adjust_none _ _)

lemma normAlt_less : normAlt "less" = "less" := by decide

lemma test_less_eq (x0 x1 : ℤ) (n0 n1 RR cl : ℚ) (qbeta : ℚ → ℚ → ℚ → ℚ)
    (h0 : 0 ≤ x0) (h1 : 0 ≤ x1) (hn0 : 0 < n0) (hn1 : 0 < n1) (hRR : 0 < RR)
    (hcl0 : 0 < cl) (hcl1 : cl < 1) (hx1 : x1 ≠ 0) :
    test [x0, x1] [n0, n1] RR "less" cl qbeta = .ok
      { p_value := pbinom x0 (x1 + x0).toNat (n0 * RR / (n0 * RR + n1))
        estimate := [((x0 : ℚ) / n0) / ((x1 : ℚ) / n1), (x0 : ℚ) / n0, (x1 : ℚ) / n1]
        null_value := RR
        conf_int := [((0 : ℚ) : WithTop ℚ),
          ((p_U qbeta x0 (x1 + x0) (1 - cl) * n1 /
            (n0 * (1 - p_U qbeta x0 (x1 + x0) (1 - cl))) : ℚ) : WithTop ℚ),
          (cl : WithTop ℚ)]
        alternative := "less"
        method := rrMethodDesc } := by
  have hne : ((x1 : ℚ)) / n1 ≠ 0 := div_ne_zero (Int.cast_ne_zero.mpr hx1) (ne_of_gt hn1)
  simp only [test, normAlt_less]
  norm_num [h0, h1, hn0, hn1, hRR, hcl0, hcl1, hne, List.forall_mem_cons,
    (show ("less" : String) ∈ altChoices from by decide),
    (show ¬ ("less" : String) = "greater" from by decide)]

lemma normAlt_greater : normAlt "greater" = "greater" := by decide

lemma normAlt_twosided : normAlt "two.sided" = "two.sided" := by decide

lemma test_greater_eq (x0 x1 : ℤ) (n0 n1 RR cl : ℚ) (qbeta : ℚ → ℚ → ℚ → ℚ)
    (h0 : 0 ≤ x0) (h1 : 0 ≤ x1) (hn0 : 0 < n0) (hn1 : 0 < n1) (hRR : 0 < RR)
    (hcl0 : 0 < cl) (hcl1 : cl < 1) (hx1 : x1 ≠ 0) :
    test [x0, x1] [n0, n1] RR "greater" cl qbeta = .ok
      { p_value := 1 - pbinom (x0 - 1) (x0 + x1).toNat (n0 * RR / (n0 * RR + n1))
        estimate := [((x0 : ℚ) / n0) / ((x1 : ℚ) / n1), (x0 : ℚ) / n0, (x1 : ℚ) / n1]
        null_value := RR
        conf_int := [((p_L qbeta x0 (x1 + x0) (1 - cl) * n1 /
            (n0 * (1 - p_L qbeta x0 (x1 + x0) (1 - cl))) : ℚ) : WithTop ℚ),
          (⊤ : WithTop ℚ),
          (cl : WithTop ℚ)]
        alternative := "greater"
        method := rrMethodDesc } := by
  have hne : ((x1 : ℚ)) / n1 ≠ 0 := div_ne_zero (Int.cast_ne_zero.mpr hx1) (ne_of_gt hn1)
  simp only [test, normAlt_greater]
  norm_num [h0, h1, hn0, hn1, hRR, hcl0, hcl1, hne, List.forall_mem_cons,
    (show ("greater" : String) ∈ altChoices from by decide),
    (show ¬ ("greater" : String) = "less" from by decide)]

lemma test_twosided_eq (x0 x1 : ℤ) (n0 n1 RR cl : ℚ) (qbeta : ℚ → ℚ → ℚ → ℚ)
    (h0 : 0 ≤ x0) (h1 : 0 ≤ x1) (hn0 : 0 < n0) (hn1 : 0 < n1) (hRR : 0 < RR)
    (hcl0 : 0 < cl) (hcl1 : cl < 1) (hx1 : x1 ≠ 0) :
    test [x0, x1] [n0, n1] RR "two.sided" cl qbeta = .ok
      { p_value := min 1 (2 * min (pbinom x0 (x1 + x0).toNat (n0 * RR / (n0 * RR + n1)))
          (1 - pbinom (x0 - 1) (x0 + x1).toNat (n0 * RR / (n0 * RR + n1))))
        estimate := [((x0 : ℚ) / n0) / ((x1 : ℚ) / n1), (x0 : ℚ) / n0, (x1 : ℚ) / n1]
        null_value := RR
        conf_int := [((p_L qbeta x0 (x1 + x0) ((1 - cl) / 2) * n1 /
            (n0 * (1 - p_L qbeta x0 (x1 + x0) ((1 - cl) / 2))) : ℚ) : WithTop ℚ),
          ((p_U qbeta x0 (x1 + x0) ((1 - cl) / 2) * n1 /
            (n0 * (1 - p_U qbeta x0 (x1 + x0) ((1 - cl) / 2))) : ℚ) : WithTop ℚ),
          (cl : WithTop ℚ)]
        alternative := "two.sided"
        method := rrMethodDesc } := by
  have hne : ((x1 : ℚ)) / n1 ≠ 0 := div_ne_zero (Int.cast_ne_zero.mpr hx1) (ne_of_gt hn1)
  simp only [test, normAlt_twosided]
  norm_num [h0, h1, hn0, hn1, hRR, hcl0, hcl1, hne, List.forall_mem_cons,
    (show ("two.sided" : String) ∈ altChoices from by decide),
    (show ¬ ("two.sided" : String) = "less" from by decide),
    (show ¬ ("two.sided" : String) = "greater" from by decide)]

lemma test_x1_zero (x0 : ℤ) (n0 n1 RR cl : ℚ) (alternative : String)
    (qbeta : ℚ → ℚ → ℚ → ℚ) (h0 : 0 ≤ x0) (hn0 : 0 < n0) (hn1 : 0 < n1) (hRR : 0 < RR)
    (halt : normAlt alternative ∈ altChoices) (hcl0 : 0 < cl) (hcl1 : cl < 1) :
    test [x0, 0] [n0, n1] RR alternative cl qbeta =
      .error "ZeroDivisionError: float division by zero" := by
  simp only [test]
  norm_num [h0, hn0, hn1, hRR, halt, hcl0, hcl1, List.forall_mem_cons]

lemma test_err_len_x (x : List ℤ) (n : List ℚ) (RR cl : ℚ) (alt : String)
    (qbeta : ℚ → ℚ → ℚ → ℚ) (h : x.length ≠ 2) :
    test x n RR alt cl qbeta = .error "x must have a length 2" := by
  simp only [test]
  rw [if_neg h]

lemma test_err_len_n (x : List ℤ) (n : List ℚ) (RR cl : ℚ) (alt : String)
    (qbeta : ℚ → ℚ → ℚ → ℚ) (h2 : x.length = 2) (h : x.length ≠ n.length) :
    test x n RR alt cl qbeta = .error "'x' and 'n' must have the same length" := by
  simp only [test]
  rw [if_pos h2, if_neg h]

lemma test_err_n_pos (x : List ℤ) (n : List ℚ) (RR cl : ℚ) (alt : String)
    (qbeta : ℚ → ℚ → ℚ → ℚ) (h2 : x.length = 2) (h3 : x.length = n.length)
    (h : ¬ ∀ a ∈ n, 0 < a) :
    test x n RR alt cl qbeta = .error "elements of 'n' must be positive" := by
  simp only [test]
  rw [if_pos h2, if_pos h3, if_neg h]

lemma test_err_x_nonneg (x : List ℤ) (n : List ℚ) (RR cl : ℚ) (alt : String)
    (qbeta : ℚ → ℚ → ℚ → ℚ) (h2 : x.length = 2) (h3 : x.length = n.length)
    (h4 : ∀ a ∈ n, 0 < a) (h : ¬ ∀ a ∈ x, 0 ≤ a) :
    test x n RR alt cl qbeta = .error "elements of 'x' must be nonnegative" := by
  simp only [test]
  rw [if_pos h2, if_pos h3, if_pos h4, if_neg h]

lemma test_err_RR (x : List ℤ) (n : List ℚ) (RR cl : ℚ) (alt : String)
    (qbeta : ℚ → ℚ → ℚ → ℚ) (h2 : x.length = 2) (h3 : x.length = n.length)
    (h4 : ∀ a ∈ n, 0 < a) (h5 : ∀ a ∈ x, 0 ≤ a) (h : ¬ 0 < RR) :
    test x n RR alt cl qbeta = .error "RR must be greater than 0" := by
  simp only [test]
  rw [if_pos h2, if_pos h3, if_pos h4, if_pos h5, if_neg h]

lemma test_err_alt (x : List ℤ) (n : List ℚ) (RR cl : ℚ) (alt : String)
    (qbeta : ℚ → ℚ → ℚ → ℚ) (h2 : x.length = 2) (h3 : x.length = n.length)
    (h4 : ∀ a ∈ n, 0 < a) (h5 : ∀ a ∈ x, 0 ≤ a) (h6 : 0 < RR)
    (h : normAlt alt ∉ altChoices) :
    test x n RR alt cl qbeta = .error altErrMsg := by
  simp only [test]
  rw [if_pos h2, if_pos h3, if_pos h4, if_pos h5, if_pos h6, if_neg h]

lemma test_err_cl (x : List ℤ) (n : List ℚ) (RR cl : ℚ) (alt : String)
    (qbeta : ℚ → ℚ → ℚ → ℚ) (h2 : x.length = 2) (h3 : x.length = n.length)
    (h4 : ∀ a ∈ n, 0 < a) (h5 : ∀ a ∈ x, 0 ≤ a) (h6 : 0 < RR)
    (h7 : normAlt alt ∈ altChoices) (h : ¬ (0 < cl ∧ cl < 1)) :
    test x n RR alt cl qbeta =
      .error "'conf.level' must be a single number between 0 and 1" := by
  simp only [test]
  rw [if_pos h2, if_pos h3, if_pos h4, if_pos h5, if_pos h6, if_pos h7, if_neg h]

lemma sum_binom_eq_one (n : ℕ) (p : ℚ) :
    ∑ i ∈ Finset.range (n + 1), (n.choose i : ℚ) * p ^ i * (1 - p) ^ (n - i) = 1 := by
  have h := add_pow p (1 - p) n
  have h2 : p + (1 - p) = 1 := by ring
  rw [h2, one_pow] at h
  calc ∑ i ∈ Finset.range (n + 1), (n.choose i : ℚ) * p ^ i * (1 - p) ^ (n - i)
      = ∑ i ∈ Finset.range (n + 1), p ^ i * (1 - p) ^ (n - i) * (n.choose i : ℚ) :=
        Finset.sum_congr rfl fun i _ => by ring
    _ = 1 := h.symm

lemma pbinom_compl (a b : ℕ) (p : ℚ) :
    pbinom (b : ℤ) (a + b) (1 - p) = 1 - pbinom ((a : ℤ) - 1) (a + b) p := by
  have hstep : ∀ i : ℕ,
      (if (a : ℤ) ≤ (i : ℤ) then ((a + b).choose i : ℚ) * p ^ i * (1 - p) ^ (a + b - i) else 0) =
        ((a + b).choose i : ℚ) * p ^ i * (1 - p) ^ (a + b - i) -
          (if (i : ℤ) ≤ (a : ℤ) - 1 then ((a + b).choose i : ℚ) * p ^ i * (1 - p) ^ (a + b - i) else 0) := by
    intro i
    by_cases h : (a : ℤ) ≤ (i : ℤ)
    · rw [if_pos h, if_neg (by omega)]
      ring
    · rw [if_neg h, if_pos (by omega)]
      ring
  have hupper : pbinom ((a : ℤ) - 1) (a + b) p =
      ∑ i ∈ Finset.range (a + b + 1),
        if (i : ℤ) ≤ (a : ℤ) - 1 then ((a + b).choose i : ℚ) * p ^ i * (1 - p) ^ (a + b - i) else 0 := rfl
  have hmain : pbinom (b : ℤ) (a + b) (1 - p) =
      ∑ i ∈ Finset.range (a + b + 1),
        if (a : ℤ) ≤ (i : ℤ) then ((a + b).choose i : ℚ) * p ^ i * (1 - p) ^ (a + b - i) else 0 := by
    rw [← Finset.sum_range_reflect
      (fun i => if (a : ℤ) ≤ (i : ℤ) then ((a + b).choose i : ℚ) * p ^ i * (1 - p) ^ (a + b - i) else 0)
      (a + b + 1)]
    unfold pbinom
    refine Finset.sum_congr rfl fun i hi => ?_
    have hi' : i ≤ a + b := by
      simpa [Nat.lt_succ_iff] using hi
    have hsub : a + b + 1 - 1 - i = a + b - i := by omega
    rw [hsub]
    have hiff : ((i : ℤ) ≤ (b : ℤ)) ↔ ((a : ℤ) ≤ ((a + b - i : ℕ) : ℤ)) := by omega
    by_cases h : (i : ℤ) ≤ (b : ℤ)
    · rw [if_pos h, if_pos (hiff.mp h)]
      rw [Nat.choose_symm hi', Nat.sub_sub_self hi', sub_sub_cancel]
      ring
    · rw [if_neg h, if_neg (fun hc => h (hiff.mpr hc))]
  calc pbinom (b : ℤ) (a + b) (1 - p)
      = ∑ i ∈ Finset.range (a + b + 1),
          (if (a : ℤ) ≤ (i : ℤ) then ((a + b).choose i : ℚ) * p ^ i * (1 - p) ^ (a + b - i) else 0) :=
        hmain
    _ = ∑ i ∈ Finset.range (a + b + 1),
          (((a + b).choose i : ℚ) * p ^ i * (1 - p) ^ (a + b - i) -
            (if (i : ℤ) ≤ (a : ℤ) - 1 then ((a + b).choose i : ℚ) * p ^ i * (1 - p) ^ (a + b - i) else 0)) :=
        Finset.sum_congr rfl fun i _ => hstep i
    _ = (∑ i ∈ Finset.range (a + b + 1), ((a + b).choose i : ℚ) * p ^ i * (1 - p) ^ (a + b - i)) -
          ∑ i ∈ Finset.range (a + b + 1),
            (if (i : ℤ) ≤ (a : ℤ) - 1 then ((a + b).choose i : ℚ) * p ^ i * (1 - p) ^ (a + b - i) else 0) :=
        Finset.sum_sub_distrib
    _ = 1 - pbinom ((a : ℤ) - 1) (a + b) p := by rw [sum_binom_eq_one, ← hupper]

/-- C8: for every valid input, the p-value of
`test((x₀,x₁),(n₀,n₁),RR,"greater")` equals the p-value of
`test((x₁,x₀),(n₁,n₀),1/RR,"less")`, and symmetrically with the
alternatives exchanged. -/
theorem rateratio_c8_symmetry (x0 x1 : ℤ) (n0 n1 RR cl : ℚ) (qbeta : ℚ → ℚ → ℚ → ℚ)
    (h0 : 0 ≤ x0) (h1 : 0 ≤ x1) (hn0 : 0 < n0) (hn1 : 0 < n1) (hRR : 0 < RR)
    (hcl0 : 0 < cl) (hcl1 : cl < 1) :
    (∀ r1 r2, test [x0, x1] [n0, n1] RR "greater" cl qbeta = .ok r1 →
      test [x1, x0] [n1, n0] (1 / RR) "less" cl qbeta = .ok r2 →
      r1.p_value = r2.p_value) ∧
    (∀ r1 r2, test [x0, x1] [n0, n1] RR "less" cl qbeta = .ok r1 →
      test [x1, x0] [n1, n0] (1 / RR) "greater" cl qbeta = .ok r2 →
      r1.p_value = r2.p_value) := by
  obtain ⟨a, rfl⟩ : ∃ a : ℕ, x0 = (a : ℤ) := ⟨x0.toNat, (Int.toNat_of_nonneg h0).symm⟩
  obtain ⟨b, rfl⟩ : ∃ b : ℕ, x1 = (b : ℤ) := ⟨x1.toNat, (Int.toNat_of_nonneg h1).symm⟩
  have hRR' : 0 < 1 / RR := by positivity
  have hprr : n1 * (1 / RR) / (n1 * (1 / RR) + n0) = 1 - n0 * RR / (n0 * RR + n1) := by
    have hRne : RR ≠ 0 := ne_of_gt hRR
    have hD : n0 * RR + n1 ≠ 0 := by positivity
    have e1 : n1 * (1 / RR) + n0 = (n0 * RR + n1) / RR := by
      field_simp
      ring
    have e2 : (1 : ℚ) - n0 * RR / (n0 * RR + n1) = n1 / (n0 * RR + n1) := by
      rw [eq_div_iff hD, sub_mul, one_mul, div_mul_cancel₀ _ hD]
      ring
    rw [e2, e1, div_div_eq_mul_div, one_div, inv_mul_cancel_right₀ hRne]
  constructor
  · intro r1 r2 hA hB
    by_cases hx1 : (b : ℤ) = 0
    · rw [hx1, test_x1_zero (a : ℤ) n0 n1 RR cl "greater" qbeta h0 hn0 hn1 hRR
        (by decide) hcl0 hcl1] at hA
      exact absurd hA (by simp)
    by_cases hx0 : (a : ℤ) = 0
    · rw [hx0, test_x1_zero (b : ℤ) n1 n0 (1 / RR) cl "less" qbeta h1 hn1 hn0 hRR'
        (by decide) hcl0 hcl1] at hB
      exact absurd hB (by simp)
    rw [test_greater_eq _ _ n0 n1 RR cl qbeta h0 h1 hn0 hn1 hRR hcl0 hcl1 hx1] at hA
    rw [test_less_eq _ _ n1 n0 (1 / RR) cl qbeta h1 h0 hn1 hn0 hRR' hcl0 hcl1 hx0] at hB
    simp only [Except.ok.injEq] at hA hB
    rw [← hA, ← hB]
    show 1 - pbinom ((a : ℤ) - 1) ((a : ℤ) + (b : ℤ)).toNat (n0 * RR / (n0 * RR + n1)) =
      pbinom (b : ℤ) ((a : ℤ) + (b : ℤ)).toNat (n1 * (1 / RR) / (n1 * (1 / RR) + n0))
    rw [hprr, show ((a : ℤ) + (b : ℤ)).toNat = a + b from by omega]
    exact (pbinom_compl a b _).symm
  · intro r1 r2 hA hB
    by_cases hx1 : (b : ℤ) = 0
    · rw [hx1, test_x1_zero (a : ℤ) n0 n1 RR cl "less" qbeta h0 hn0 hn1 hRR
        (by decide) hcl0 hcl1] at hA
      exact absurd hA (by simp)
    by_cases hx0 : (a : ℤ) = 0
    · rw [hx0, test_x1_zero (b : ℤ) n1 n0 (1 / RR) cl "greater" qbeta h1 hn1 hn0 hRR'
        (by decide) hcl0 hcl1] at hB
      exact absurd hB (by simp)
    rw [test_less_eq _ _ n0 n1 RR cl qbeta h0 h1 hn0 hn1 hRR hcl0 hcl1 hx1] at hA
    rw [test_greater_eq _ _ n1 n0 (1 / RR) cl qbeta h1 h0 hn1 hn0 hRR' hcl0 hcl1 hx0] at hB
    simp only [Except.ok.injEq] at hA hB
    rw [← hA, ← hB]
    show pbinom (a : ℤ) ((b : ℤ) + (a : ℤ)).toNat (n0 * RR / (n0 * RR + n1)) =
      1 - pbinom ((b : ℤ) - 1) ((b : ℤ) + (a : ℤ)).toNat (n1 * (1 / RR) / (n1 * (1 / RR) + n0))
    have h1p : 1 - n1 * (1 / RR) / (n1 * (1 / RR) + n0) = n0 * RR / (n0 * RR + n1) := by
      rw [hprr]; ring
    rw [show ((b : ℤ) + (a : ℤ)).toNat = b + a from by omega, ← h1p]
    exact pbinom_compl b a _

/-- C2: for every valid input to `test`, the returned p-value is the
spec's conditional-binomial quantity: `pval_less` for `"less"`,
`pval_greater` for `"greater"`, and `min 1 (2·min pval_less pval_greater)`
for `"two.sided"`, with success probability `n₀·RR/(n₀·RR+n₁)`. -/
theorem rateratio_c2_pvalues (x0 x1 : ℤ) (n0 n1 RR cl : ℚ) (qbeta : ℚ → ℚ → ℚ → ℚ)
    (h0 : 0 ≤ x0) (h1 : 0 ≤ x1) (hn0 : 0 < n0) (hn1 : 0 < n1) (hRR : 0 < RR)
    (hcl0 : 0 < cl) (hcl1 : cl < 1) :
    (∀ r, test [x0, x1] [n0, n1] RR "less" cl qbeta = .ok r →
      r.p_value = specPvalLess x0 x1 n0 n1 RR) ∧
    (∀ r, test [x0, x1] [n0, n1] RR "greater" cl qbeta = .ok r →
      r.p_value = specPvalGreater x0 x1 n0 n1 RR) ∧
    (∀ r, test [x0, x1] [n0, n1] RR "two.sided" cl qbeta = .ok r →
      r.p_value = min 1 (2 * min (specPvalLess x0 x1 n0 n1 RR) (specPvalGreater x0 x1 n0 n1 RR))) := by
  refine ⟨fun r h => ?_, fun r h => ?_, fun r h => ?_⟩
  · by_cases hx1 : x1 = 0
    · subst hx1
      rw [test_x1_zero x0 n0 n1 RR cl "less" qbeta h0 hn0 hn1 hRR (by decide) hcl0 hcl1] at h
      exact absurd h (by simp)
    · rw [test_less_eq x0 x1 n0 n1 RR cl qbeta h0 h1 hn0 hn1 hRR hcl0 hcl1 hx1] at h
      simp only [Except.ok.injEq] at h
      rw [← h]
      simp only [specPvalLess, specPRR, Int.add_comm x1 x0]
  · by_cases hx1 : x1 = 0
    · subst hx1
      rw [test_x1_zero x0 n0 n1 RR cl "greater" qbeta h0 hn0 hn1 hRR (by decide) hcl0 hcl1] at h
      exact absurd h (by simp)
    · rw [test_greater_eq x0 x1 n0 n1 RR cl qbeta h0 h1 hn0 hn1 hRR hcl0 hcl1 hx1] at h
      simp only [Except.ok.injEq] at h
      rw [← h]
      simp only [specPvalGreater, specPRR]
  · by_cases hx1 : x1 = 0
    · subst hx1
      rw [test_x1_zero x0 n0 n1 RR cl "two.sided" qbeta h0 hn0 hn1 hRR (by decide) hcl0 hcl1] at h
      exact absurd h (by simp)
    · rw [test_twosided_eq x0 x1 n0 n1 RR cl qbeta h0 h1 hn0 hn1 hRR hcl0 hcl1 hx1] at h
      simp only [Except.ok.injEq] at h
      rw [← h]
      simp only [specPvalLess, specPvalGreater, specPRR, Int.add_comm x1 x0]

/-- C3 (amended): for every valid input, the confidence interval returned
by `test` is `[0, T(pU)]` for `"less"`, `[T(pL), +∞)` for `"greater"`,
and `[T(pL), T(pU)]` for `"two.sided"` (tail `1−conf_level` one-sided,
`(1−conf_level)/2` two-sided), where `pL`/`pU` are the lower/upper
Clopper-Pearson proportions `p_L`/`p_U` and `T(q) = q·n₁/(n₀·(1−q))`;
the claim's assignment (lower-bound proportion for `"less"`, upper for
`"greater"`) is swapped relative to the code. -/
theorem rateratio_c3_amended (x0 x1 : ℤ) (n0 n1 RR cl : ℚ) (qbeta : ℚ → ℚ → ℚ → ℚ)
    (h0 : 0 ≤ x0) (h1 : 0 ≤ x1) (hn0 : 0 < n0) (hn1 : 0 < n1) (hRR : 0 < RR)
    (hcl0 : 0 < cl) (hcl1 : cl < 1) :
    (∀ r, test [x0, x1] [n0, n1] RR "less" cl qbeta = .ok r →
      r.conf_int = [((0 : ℚ) : WithTop ℚ),
        ((rrTransform n0 n1 (p_U qbeta x0 (x0 + x1) (1 - cl)) : ℚ) : WithTop ℚ),
        (cl : WithTop ℚ)]) ∧
    (∀ r, test [x0, x1] [n0, n1] RR "greater" cl qbeta = .ok r →
      r.conf_int = [((rrTransform n0 n1 (p_L qbeta x0 (x0 + x1) (1 - cl)) : ℚ) : WithTop ℚ),
        (⊤ : WithTop ℚ),
        (cl : WithTop ℚ)]) ∧
    (∀ r, test [x0, x1] [n0, n1] RR "two.sided" cl qbeta = .ok r →
      r.conf_int = [((rrTransform n0 n1 (p_L qbeta x0 (x0 + x1) ((1 - cl) / 2)) : ℚ) : WithTop ℚ),
        ((rrTransform n0 n1 (p_U qbeta x0 (x0 + x1) ((1 - cl) / 2)) : ℚ) : WithTop ℚ),
        (cl : WithTop ℚ)]) := by
  refine ⟨fun r h => ?_, fun r h => ?_, fun r h => ?_⟩
  · by_cases hx1 : x1 = 0
    · subst hx1
      rw [test_x1_zero x0 n0 n1 RR cl "less" qbeta h0 hn0 hn1 hRR (by decide) hcl0 hcl1] at h
      exact absurd h (by simp)
    · rw [test_less_eq x0 x1 n0 n1 RR cl qbeta h0 h1 hn0 hn1 hRR hcl0 hcl1 hx1] at h
      simp only [Except.ok.injEq] at h
      rw [← h]
      simp only [rrTransform, Int.add_comm x1 x0]
  · by_cases hx1 : x1 = 0
    · subst hx1
      rw [test_x1_zero x0 n0 n1 RR cl "greater" qbeta h0 hn0 hn1 hRR (by decide) hcl0 hcl1] at h
      exact absurd h (by simp)
    · rw [test_greater_eq x0 x1 n0 n1 RR cl qbeta h0 h1 hn0 hn1 hRR hcl0 hcl1 hx1] at h
      simp only [Except.ok.injEq] at h
      rw [← h]
      simp only [rrTransform, Int.add_comm x1 x0]
  · by_cases hx1 : x1 = 0
    · subst hx1
      rw [test_x1_zero x0 n0 n1 RR cl "two.sided" qbeta h0 hn0 hn1 hRR (by decide) hcl0 hcl1] at h
      exact absurd h (by simp)
    · rw [test_twosided_eq x0 x1 n0 n1 RR cl qbeta h0 h1 hn0 hn1 hRR hcl0 hcl1 hx1] at h
      simp only [Except.ok.injEq] at h
      rw [← h]
      simp only [rrTransform, Int.add_comm x1 x0]

/-- C3 (counterexample): at `x = (1,1)`, `n = (1,1)`, `RR = 1`,
`conf_level = 1/2`, with a Beta-quantile oracle that separates the two
shape pairs, the upper bound of the `"less"` interval is built from
`p_U`, not from `p_L` as the claim states: the returned interval is
`[0, 1, 1/2]`, not `[0, T(p_L ...), 1/2] = [0, 1/3, 1/2]`. -/
theorem rateratio_c3_counterexample :
    confIntOf (test [1, 1] [1, 1] 1 "less" (1/2) qbetaSel) ≠
      [((0 : ℚ) : WithTop ℚ),
        ((rrTransform 1 1 (p_L qbetaSel 1 (1 + 1) (1 - 1/2)) : ℚ) : WithTop ℚ),
        ((1/2 : ℚ) : WithTop ℚ)] ∧
    confIntOf (test [1, 1] [1, 1] 1 "less" (1/2) qbetaSel) =
      [((0 : ℚ) : WithTop ℚ), ((1 : ℚ) : WithTop ℚ), ((1/2 : ℚ) : WithTop ℚ)] := by
  have h := test_less_eq 1 1 1 1 1 (1/2) qbetaSel (by norm_num) (by norm_num) (by norm_num)
    (by norm_num) (by norm_num) (by norm_num) (by norm_num) (by norm_num)
  rw [h]
  constructor
  · norm_num [confIntOf, p_U, p_L, qbetaSel, rrTransform]
  · norm_num [confIntOf, p_U, qbetaSel]

/-- C10: every input with second count `x₁ = 0` passes all the
preconditions but makes `test` raise `ZeroDivisionError` while computing
the point estimate `(x₀/n₀)/(x₁/n₁)` (rateratio.py line 156), so no
result is returned. -/
theorem rateratio_c10_zero_divide (x0 : ℤ) (n0 n1 RR cl : ℚ) (alternative : String)
    (qbeta : ℚ → ℚ → ℚ → ℚ) (h0 : 0 ≤ x0) (hn0 : 0 < n0) (hn1 : 0 < n1) (hRR : 0 < RR)
    (halt : normAlt alternative ∈ altChoices) (hcl0 : 0 < cl) (hcl1 : cl < 1) :
    test [x0, 0] [n0, n1] RR alternative cl qbeta =
      .error "ZeroDivisionError: float division by zero" :=
  test_x1_zero x0 n0 n1 RR cl alternative qbeta h0 hn0 hn1 hRR halt hcl0 hcl1

/-- Witness for C10 at `x = (1,0)`, `n = (1,1)`, `RR = 1`. -/
theorem rateratio_c10_witness :
    test [(1 : ℤ), 0] [(1 : ℚ), 1] 1 "two.sided" (1/2) qbetaConst =
      .error "ZeroDivisionError: float division by zero" :=
  rateratio_c10_zero_divide 1 1 1 1 (1/2) "two.sided" qbetaConst (by norm_num) (by norm_num)
    (by norm_num) (by norm_num) (by decide) (by norm_num) (by norm_num)

/-- C7: every invalid argument — unknown adjustment method in `p_adjust`,
and in `test`: `x` or `n` not of length 2, non-positive exposure,
negative count, `RR ≤ 0`, unrecognized alternative (after shorthand
normalization), or `conf_level` outside `(0,1)` — produces an immediate
error whose message names the violated constraint, and no result is
returned. -/
theorem errors_c7_invalid_args :
    (∀ (p : List ℚ) (method : String) (n : Option ℚ),
      normMethod method ∉ p_adjust_methods →
      p_adjust p method n = .error "ERROR! method must be one of fdr,bonferroni,none") ∧
    (∀ (x : List ℤ) (n : List ℚ) (RR cl : ℚ) (alt : String) (qbeta : ℚ → ℚ → ℚ → ℚ),
      (x.length ≠ 2 → test x n RR alt cl qbeta = .error "x must have a length 2") ∧
      (x.length = 2 → x.length ≠ n.length →
        test x n RR alt cl qbeta = .error "'x' and 'n' must have the same length") ∧
      (x.length = 2 → x.length = n.length → ¬ (∀ a ∈ n, 0 < a) →
        test x n RR alt cl qbeta = .error "elements of 'n' must be positive") ∧
      (x.length = 2 → x.length = n.length → (∀ a ∈ n, 0 < a) → ¬ (∀ a ∈ x, 0 ≤ a) →
        test x n RR alt cl qbeta = .error "elements of 'x' must be nonnegative") ∧
      (x.length = 2 → x.length = n.length → (∀ a ∈ n, 0 < a) → (∀ a ∈ x, 0 ≤ a) →
        ¬ 0 < RR → test x n RR alt cl qbeta = .error "RR must be greater than 0") ∧
      (x.length = 2 → x.length = n.length → (∀ a ∈ n, 0 < a) → (∀ a ∈ x, 0 ≤ a) →
        0 < RR → normAlt alt ∉ altChoices → test x n RR alt cl qbeta = .error altErrMsg) ∧
      (x.length = 2 → x.length = n.length → (∀ a ∈ n, 0 < a) → (∀ a ∈ x, 0 ≤ a) →
        0 < RR → normAlt alt ∈ altChoices → ¬ (0 < cl ∧ cl < 1) →
        test x n RR alt cl qbeta =
          .error "'conf.level' must be a single number between 0 and 1")) := by
  refine ⟨fun p method n h => ?_, fun x n RR cl alt qbeta =>
    ⟨test_err_len_x x n RR cl alt qbeta,
     test_err_len_n x n RR cl alt qbeta,
     test_err_n_pos x n RR cl alt qbeta,
     test_err_x_nonneg x n RR cl alt qbeta,
     test_err_RR x n RR cl alt qbeta,
     test_err_alt x n RR cl alt qbeta,
     test_err_cl x n RR cl alt qbeta⟩⟩
  simp only [p_adjust]
  rw [if_neg h]

/-- Witness for C7: one concrete violating input per checked error. -/
theorem errors_c7_witness :
    p_adjust [(1:ℚ)/2] "bogus" none =
      .error "ERROR! method must be one of fdr,bonferroni,none" ∧
    test [(1:ℤ)] [(1:ℚ), 1] 1 "two.sided" (1/2) qbetaConst =
      .error "x must have a length 2" ∧
    test [(1:ℤ), 1] [(1:ℚ)] 1 "two.sided" (1/2) qbetaConst =
      .error "'x' and 'n' must have the same length" ∧
    test [(1:ℤ), 1] [(0:ℚ), 1] 1 "two.sided" (1/2) qbetaConst =
      .error "elements of 'n' must be positive" ∧
    test [(-1:ℤ), 1] [(1:ℚ), 1] 1 "two.sided" (1/2) qbetaConst =
      .error "elements of 'x' must be nonnegative" ∧
    test [(1:ℤ), 1] [(1:ℚ), 1] 0 "two.sided" (1/2) qbetaConst =
      .error "RR must be greater than 0" ∧
    test [(1:ℤ), 1] [(1:ℚ), 1] 1 "bogus" (1/2) qbetaConst = .error altErrMsg ∧
    test [(1:ℤ), 1] [(1:ℚ), 1] 1 "two.sided" 1 qbetaConst =
      .error "'conf.level' must be a single number between 0 and 1" := by
  refine ⟨errors_c7_invalid_args.1 [(1:ℚ)/2] "bogus" none (by decide),
    (errors_c7_invalid_args.2 [(1:ℤ)] [(1:ℚ), 1] 1 (1/2) "two.sided" qbetaConst).1
      (by decide),
    (errors_c7_invalid_args.2 [(1:ℤ), 1] [(1:ℚ)] 1 (1/2) "two.sided" qbetaConst).2.1
      (by decide) (by decide),
    (errors_c7_invalid_args.2 [(1:ℤ), 1] [(0:ℚ), 1] 1 (1/2) "two.sided" qbetaConst).2.2.1
      (by decide) (by decide) (by norm_num [List.forall_mem_cons]),
    (errors_c7_invalid_args.2 [(-1:ℤ), 1] [(1:ℚ), 1] 1 (1/2) "two.sided" qbetaConst).2.2.2.1
      (by decide) (by decide) (by norm_num [List.forall_mem_cons]) (by decide),
    (errors_c7_invalid_args.2 [(1:ℤ), 1] [(1:ℚ), 1] 0 (1/2) "two.sided" qbetaConst).2.2.2.2.1
      (by decide) (by decide) (by norm_num [List.forall_mem_cons])
      (by norm_num [List.forall_mem_cons]) (by norm_num),
    (errors_c7_invalid_args.2 [(1:ℤ), 1] [(1:ℚ), 1] 1 (1/2) "bogus" qbetaConst).2.2.2.2.2.1
      (by decide) (by decide) (by norm_num [List.forall_mem_cons])
      (by norm_num [List.forall_mem_cons]) (by norm_num) (by decide),
    (errors_c7_invalid_args.2 [(1:ℤ), 1] [(1:ℚ), 1] 1 1 "two.sided" qbetaConst).2.2.2.2.2.2
      (by decide) (by decide) (by norm_num [List.forall_mem_cons])
      (by norm_num [List.forall_mem_cons]) (by norm_num) (by decide) (by norm_num)⟩

/-- Witness for C2 at `x = (1,1)`, `n = (1,1)`, `RR = 1`,
`alternative = "less"`: the returned p-value `3/4` equals `pval_less`. -/
theorem rateratio_c2_witness : ((3 : ℚ)/4) = specPvalLess 1 1 1 1 1 :=
  (rateratio_c2_pvalues 1 1 1 1 1 (1/2) qbetaConst (by norm_num) (by norm_num) (by norm_num)
    (by norm_num) (by norm_num) (by norm_num) (by norm_num)).1
    { p_value := (3 : ℚ)/4
      estimate := [1, 1, 1]
      null_value := 1
      conf_int := [((0 : ℚ) : WithTop ℚ), ((1 : ℚ) : WithTop ℚ), ((1/2 : ℚ) : WithTop ℚ)]
      alternative := "less"
      method := rrMethodDesc }
    (by
      rw [test_less_eq 1 1 1 1 1 (1/2) qbetaConst (by norm_num) (by norm_num) (by norm_num)
        (by norm_num) (by norm_num) (by norm_num) (by norm_num) (by norm_num)]
      norm_num [pbinom, Finset.sum_range_succ, Finset.sum_range_zero, p_U, qbetaConst,
        (show ((2:ℤ)).toNat = 2 from rfl)])

/-- Witness for C3 (amended) at `x = (1,1)`, `n = (1,1)`, `RR = 1`,
`alternative = "greater"`. -/
theorem rateratio_c3_witness :
    [((1 : ℚ) : WithTop ℚ), (⊤ : WithTop ℚ), ((1/2 : ℚ) : WithTop ℚ)] =
      [((rrTransform 1 1 (p_L qbetaConst 1 ((1 : ℤ) + 1) (1 - 1/2)) : ℚ) : WithTop ℚ),
        (⊤ : WithTop ℚ), ((1/2 : ℚ) : WithTop ℚ)] :=
  (rateratio_c3_amended 1 1 1 1 1 (1/2) qbetaConst (by norm_num) (by norm_num) (by norm_num)
    (by norm_num) (by norm_num) (by norm_num) (by norm_num)).2.1
    { p_value := 1 - pbinom ((1 : ℤ) - 1) ((1 : ℤ) + 1).toNat ((1 : ℚ) * 1 / (1 * 1 + 1))
      estimate := [1, 1, 1]
      null_value := 1
      conf_int := [((1 : ℚ) : WithTop ℚ), (⊤ : WithTop ℚ), ((1/2 : ℚ) : WithTop ℚ)]
      alternative := "greater"
      method := rrMethodDesc }
    (by
      rw [test_greater_eq 1 1 1 1 1 (1/2) qbetaConst (by norm_num) (by norm_num) (by norm_num)
        (by norm_num) (by norm_num) (by norm_num) (by norm_num) (by norm_num)]
      norm_num [p_L, qbetaConst])

/-- Witness for C8 at `x = (1,1)`, `n = (1,1)`, `RR = 1`: both p-values
are `3/4`. -/
theorem rateratio_c8_witness : ((3 : ℚ)/4) = ((3 : ℚ)/4) :=
  (rateratio_c8_symmetry 1 1 1 1 1 (1/2) qbetaConst (by norm_num) (by norm_num) (by norm_num)
    (by norm_num) (by norm_num) (by norm_num) (by norm_num)).1
    { p_value := (3 : ℚ)/4
      estimate := [1, 1, 1]
      null_value := 1
      conf_int := [((1 : ℚ) : WithTop ℚ), (⊤ : WithTop ℚ), ((1/2 : ℚ) : WithTop ℚ)]
      alternative := "greater"
      method := rrMethodDesc }
    { p_value := (3 : ℚ)/4
      estimate := [1, 1, 1]
      null_value := 1/1
      conf_int := [((0 : ℚ) : WithTop ℚ), ((1 : ℚ) : WithTop ℚ), ((1/2 : ℚ) : WithTop ℚ)]
      alternative := "less"
      method := rrMethodDesc }
    (by
      rw [test_greater_eq 1 1 1 1 1 (1/2) qbetaConst (by norm_num) (by norm_num) (by norm_num)
        (by norm_num) (by norm_num) (by norm_num) (by norm_num) (by norm_num)]
      norm_num [pbinom, Finset.sum_range_succ, Finset.sum_range_zero, p_L, qbetaConst,
        (show ((2:ℤ)).toNat = 2 from rfl)])
    (by
      rw [test_less_eq 1 1 1 1 (1/1) (1/2) qbetaConst (by norm_num) (by norm_num) (by norm_num)
        (by norm_num) (by norm_num) (by norm_num) (by norm_num) (by norm_num)]
      norm_num [pbinom, Finset.sum_range_succ, Finset.sum_range_zero, p_U, qbetaConst,
        (show ((2:ℤ)).toNat = 2 from rfl)])
